import Mathlib

/-!
Verification of the mvn-skill build-orchestration core: a shallow embedding of
the argument tokenizer (args.ts), the log annotation extractor, the step
pipeline runner and the six handler steps (index.ts), together with theorems
settling the specification claims.
-/

set_option maxRecDepth 4000

namespace Mvn

/-- Quote characters, written via their code points. -/
def singleQuote : Char := Char.ofNat 39

/-- Double quote character. -/
def doubleQuote : Char := Char.ofNat 34

/-- JavaScript whitespace test used by `String.prototype.trim` (the subset
relevant to argument strings). -/
def isJsSpace (c : Char) : Bool :=
  c == ' ' || c == '\t' || c == '\n' || c == '\r'

/-- JavaScript `String.prototype.trim`: strip whitespace from both ends. -/
def trimChars (l : List Char) : List Char :=
  ((l.dropWhile isJsSpace).reverse.dropWhile isJsSpace).reverse

/-- JavaScript values that can appear in an already-tokenized argument array
(`string | number | boolean` in practice). -/
inductive JsVal
  | str (s : String)
  | num (n : Int)
  | boolean (b : Bool)
deriving DecidableEq

/-- JavaScript stringification `e + ""` for the modelled values. -/
def jsValToString : JsVal → String
  | .str s => s
  | .num n => toString n
  | .boolean b => if b then "true" else "false"

/-- The coercion applied per element of an array input:
`typeof e !== "string" ? e + "" : e` (args.ts line 19). -/
def jsCoerce : JsVal → String
  | .str s => s
  | e => jsValToString e

/-- The `string | string[]` input type of `tokenizeArgString`. -/
inductive ArgInput
  | ofString (s : String)
  | ofArray (l : List JsVal)

/-- Loop state of the character scan in `tokenizeArgString` (args.ts lines
22-26): current token index `i`, previous character `prev`, the currently
open quote `opening`, and the token array `args`. -/
structure TokState where
  i : Nat
  prev : Option Char
  opening : Option Char
  args : List String

/-- JavaScript `if (!args[i]) args[i] = ""; args[i] += c` on a growable
array: pad with empty strings up to index `i`, then append `c` there. -/
def writeChar (args : List String) (i : Nat) (c : Char) : List String :=
  let grown := if args.length ≤ i then args ++ List.replicate (i + 1 - args.length) "" else args
  grown.set i (grown.getD i "" ++ c.toString)

/-- One iteration of the scan loop of `tokenizeArgString` (args.ts lines
27-46): split on a space outside quotes (bumping `i` unless the previous
character was also a space), otherwise update the open-quote state and append
the character to the current token. -/
def tokStep (st : TokState) (c : Char) : TokState :=
  if c == ' ' && st.opening.isNone then
    { st with i := if st.prev == some ' ' then st.i else st.i + 1, prev := some c }
  else
    let opening :=
      if some c == st.opening then none
      else if (c == singleQuote || c == doubleQuote) && st.opening.isNone then some c
      else st.opening
    { i := st.i, prev := some c, opening := opening, args := writeChar st.args st.i c }

/-- The string branch of `tokenizeArgString` (args.ts lines 21-47): trim,
then scan character by character. -/
def tokenizeString (argString : String) : List String :=
  ((trimChars argString.toList).foldl tokStep ⟨0, none, none, []⟩).args

/-- Function `tokenizeArgString` (args.ts lines 17-48): an array input is mapped
through JavaScript string coercion; a string input is scanned. -/
def tokenizeArgString : ArgInput → List String
  | .ofArray l => l.map jsCoerce
  | .ofString s => tokenizeString s

/-- JavaScript `String.prototype.includes`: substring test. -/
def jsIncludes (s sub : String) : Bool :=
  s.toList.tails.any (fun t => sub.toList.isPrefixOf t)

/-- Replace the first occurrence of `pat` in a character list by nothing
(the list-level core of JavaScript `String.prototype.replace(pat, "")`). -/
def replaceFirstAux : List Char → List Char → List Char
  | [], _ => []
  | c :: rest, pat =>
    if pat.isPrefixOf (c :: rest) then (c :: rest).drop pat.length
    else c :: replaceFirstAux rest pat

/-- JavaScript `s.replace(pat, "")` for a string pattern: removes the first
occurrence only. -/
def jsReplaceFirst (s pat : String) : String :=
  ⟨replaceFirstAux s.toList pat.toList⟩

/-- Severity of one parsed diagnostic, mapped onto the check-run annotation
levels. -/
inductive Severity
  | notice
  | warning
  | failure
deriving DecidableEq

/-- One parsed build-log finding, as produced by the extractor. -/
structure Diagnostic where
  severity : Severity
  path : String
  line : Option Nat
  column : Option Nat
  title : String
  message : String
deriving DecidableEq

/-- Modelled from the spec: the fixed severity mapping of the extractor
(annotation.ts is absent from src/). Tool level tokens map deterministically
to a severity; unrecognized tokens default conservatively to warning. -/
def severityOfLevel (level : String) : Severity :=
  if level = "ERROR" then .failure
  else if level = "WARN" ∨ level = "WARNING" then .warning
  else if level = "INFO" then .notice
  else .warning

/-- Split a character list at the first occurrence of `sep`, returning the
characters before it and the rest after it. -/
def splitAtChar : List Char → Char → Option (List Char × List Char)
  | [], _ => none
  | c :: rest, sep =>
    if c = sep then some ([], rest)
    else
      match splitAtChar rest sep with
      | some p => some (c :: p.1, p.2)
      | none => none

/-- Split a character list at the first occurrence of a colon immediately
followed by an opening bracket, the separator between the path group and the
position group of the Maven diagnostic pattern. -/
def splitAtColonBracket : List Char → Option (List Char × List Char)
  | [] => none
  | [_] => none
  | c :: c2 :: rest =>
    if c = ':' ∧ c2 = '[' then some ([], rest)
    else
      match splitAtColonBracket (c2 :: rest) with
      | some p => some (c :: p.1, p.2)
      | none => none

/-- Parse a non-empty all-digit character list as a natural number. -/
def parseNatDigits (l : List Char) : Option Nat :=
  if l = [] then none
  else if l.all (fun c => c.isDigit) then
    some (l.foldl (fun acc c => acc * 10 + (c.toNat - 48)) 0)
  else none

/-- Modelled from the spec: the per-line matcher of the extractor
(annotation.ts is absent from src/). A line of the shape
`[LEVEL] path:[line,col] message` yields one record with severity derived
from the bracketed level token, path, line and column parsed as the
corresponding groups, and the trailing text as the message; any other line
yields no diagnostic. -/
def parseMvnLine (line : String) : Option Diagnostic :=
  match line.toList with
  | '[' :: rest =>
    match splitAtChar rest ']' with
    | none => none
    | some lvl =>
      match lvl.2 with
      | ' ' :: afterSpace =>
        match splitAtColonBracket afterSpace with
        | none => none
        | some pa =>
          match splitAtChar pa.2 ',' with
          | none => none
          | some li =>
            match splitAtChar li.2 ']' with
            | none => none
            | some co =>
              match parseNatDigits li.1, parseNatDigits co.1 with
              | some ln, some col =>
                if pa.1 = [] then none
                else
                  let msg : List Char :=
                    match co.2 with
                    | ' ' :: m => m
                    | m => m
                  some
                    { severity := severityOfLevel ⟨lvl.1⟩,
                      path := ⟨pa.1⟩,
                      line := some ln,
                      column := some col,
                      title := "mvn",
                      message := ⟨msg⟩ }
              | _, _ => none
      | _ => none
  | _ => none

/-- Split a character list into lines at newline characters, like
`String.prototype.split("\n")`. -/
def splitLinesAux : List Char → List (List Char)
  | [] => [[]]
  | c :: rest =>
    let r := splitLinesAux rest
    if c = '\n' then [] :: r
    else (c :: r.headD []) :: r.tail

/-- Modelled from the spec: `extractAnnotations` (annotation.ts is absent
from src/). Scans the captured log line by line, collecting the diagnostics
of every matching line in order of appearance. -/
def extractAnnotations (log : String) : List Diagnostic :=
  ((splitLinesAux log.toList).map (fun cs => String.mk cs)).filterMap parseMvnLine

/-- Result code of a step outcome. -/
inductive StatusCode
  | success
  | failure
deriving DecidableEq

/-- Modelled from the spec: the outcome value of the `status` module of
@atomist/skill (not part of this repository's src/): success or failure with
an optional reason, a hidden flag, and an abort flag that halts the pipeline
without marking it failed. -/
structure Outcome where
  code : StatusCode
  reason : Option String
  hidden : Bool
  abort : Bool
deriving DecidableEq

/-- Outcome of `status.success()`. -/
def successStatus : Outcome := ⟨.success, none, false, false⟩

/-- Outcome of `status.success(reason)`. -/
def successWith (reason : String) : Outcome := ⟨.success, some reason, false, false⟩

/-- Outcome of `status.failure(reason)`. -/
def failureWith (reason : String) : Outcome := ⟨.failure, some reason, false, false⟩

/-- Outcome of `status.success(reason).hidden().abort()`. -/
def hiddenAbortSuccess (reason : String) : Outcome := ⟨.success, some reason, true, true⟩

/-- A pipeline step over a shared parameter state `σ`: a name, a run
predicate, and a run function returning an outcome and the updated state. -/
structure Step (σ : Type) where
  name : String
  runWhen : σ → Bool
  run : σ → Outcome × σ

/-- Modelled from the spec: the step pipeline runner `runSteps` of
@atomist/skill (not part of this repository's src/), per spec section 4.1:
run each step in order, skipping steps whose run predicate is false,
stopping at the first failure or aborting outcome, otherwise threading the
mutated state and returning the last outcome. The third component records
the names of the executed steps in order. -/
def runSteps {σ : Type} (steps : List (Step σ)) (s : σ) (last : Outcome) :
    Outcome × σ × List String :=
  match steps with
  | [] => (last, s, [])
  | step :: rest =>
    if step.runWhen s then
      let r := step.run s
      if r.1.code = .failure then (r.1, r.2, [step.name])
      else if r.1.abort then (r.1, r.2, [step.name])
      else
        let t := runSteps rest r.2 r.1
        (t.1, t.2.1, step.name :: t.2.2)
    else runSteps rest s last

/-- The external world of one handler invocation: filesystem facts,
configuration parameters, and the observed behavior of the spawned
processes. -/
structure World where
  pomExists : Bool
  mvnwExists : Bool
  m2SettingsExists : Bool
  projectDir : String
  atomistHome : Option String
  cfgMvn : Option String
  cfgVersion : String
  cfgSettings : Option String
  cfgCommand : Option String
  commandExit : Int
  jdkExit : Int
  mvnExit : Int
  mvnLog : String
deriving DecidableEq

/-- One annotation record attached to a check-run update (index.ts lines
257-265). -/
structure CheckAnnotation where
  annotationLevel : Severity
  path : String
  startLine : Option Nat
  endLine : Option Nat
  startOffset : Option Nat
  title : String
  message : String
deriving DecidableEq

/-- One `check.update` call: the name of the issuing step, the conclusion
(`none` is the undefined/pending conclusion), the body text, and the
attached annotations. -/
structure CheckUpdate where
  step : String
  conclusion : Option StatusCode
  body : String
  annotations : List CheckAnnotation
deriving DecidableEq

/-- The shared mutable `MvnParameters` of the pipeline, extended with the
observable effects: whether a check-run was created and the ordered list of
issued check-run updates. -/
structure PState where
  checkCreated : Bool
  body : List String
  updates : List CheckUpdate
  settingsXmlPresent : Bool
deriving DecidableEq

/-- JavaScript truthiness of an optional string: `undefined` and the empty
string are falsy. -/
def jsTruthy : Option String → Bool
  | none => false
  | some s => !(s == "")

/-- JavaScript `v || d` for an optional string `v`. -/
def orDefault (v : Option String) (d : String) : String :=
  match v with
  | some s => if s == "" then d else s
  | none => d

/-- The report body fragments joined by the fixed separator
(`params.body.join("\n\n---\n\n")`). -/
def joinBody (body : List String) : String :=
  String.intercalate "\n\n---\n\n" body

/-- The command line string of a spawned process. -/
def cmdString (cmd : String) (args : List String) : String :=
  String.intercalate " " (cmd :: args)

/-- Modelled from the spec: `spawnFailure` from the repository's status.ts
(absent from src/) embeds the failing command line and its captured output
verbatim in the report body. -/
def spawnFailure (cmd : String) (output : String) : String :=
  "Running " ++ cmd ++ " errored:\n" ++ output

/-- Modelled from the spec: `statusReason` from the repository's status.ts
(absent from src/) renders a human-readable reason for the outcome. -/
def statusReason (reason : String) : String := reason

/-- Modelled from the spec: `trimDirectory` from the repository's status.ts
(absent from src/) strips the working directory prefix from a command
string; the claims never inspect the result. -/
def trimDirectory (s : String) : String := s

/-- Path `params.project.path(rel)`. -/
def projectPath (w : World) (rel : String) : String :=
  w.projectDir ++ "/" ++ rel

/-- Path `params.project.path(a, b)`. -/
def projectPath2 (w : World) (a b : String) : String :=
  w.projectDir ++ "/" ++ a ++ "/" ++ b

/-- Step `LoadProjectStep` (index.ts lines 53-85): resolves the project handle;
always succeeds in the modelled world. -/
def LoadProjectStep (_w : World) : Step PState :=
  { name := "load",
    runWhen := fun _ => true,
    run := fun st => (successStatus, st) }

/-- Step `ValidateStep` (index.ts lines 87-109): if pom.xml is absent, return a
hidden aborting success; otherwise create the check-run and reset the
report body. -/
def ValidateStep (w : World) : Step PState :=
  { name := "validate",
    runWhen := fun _ => true,
    run := fun st =>
      if w.pomExists = false then
        (hiddenAbortSuccess "Ignoring push to non-Maven project", st)
      else
        (successStatus, { st with checkCreated := true, body := [] }) }

/-- Step `CommandStep` (index.ts lines 111-145): runs the configured setup shell
command; a non-zero exit pushes the failure to the report, updates the check
with conclusion failure and fails the pipeline. -/
def CommandStep (w : World) : Step PState :=
  { name := "command",
    runWhen := fun _ => jsTruthy w.cfgCommand,
    run := fun st =>
      let cmd := cmdString "bash" ["-c", orDefault w.cfgCommand ""]
      if w.commandExit ≠ 0 then
        let body := st.body ++ [spawnFailure cmd ""]
        (failureWith (statusReason (cmd ++ " failed")),
         { st with body := body,
                   updates := st.updates ++ [⟨"command", some .failure, joinBody body, []⟩] })
      else
        let body := st.body ++ ["Setup command " ++ trimDirectory cmd ++ " successful"]
        (successStatus,
         { st with body := body,
                   updates := st.updates ++ [⟨"command", none, joinBody body, []⟩] }) }

/-- Step `PrepareStep` (index.ts lines 147-164): writes the configured settings
content to .m2/settings.xml and updates the check with an undefined
conclusion. -/
def PrepareStep (w : World) : Step PState :=
  { name := "prepare",
    runWhen := fun _ => jsTruthy w.cfgSettings,
    run := fun st =>
      (successStatus,
       { st with settingsXmlPresent := true,
                 updates := st.updates ++ [⟨"prepare", none, joinBody st.body, []⟩] }) }

/-- Step `SetupNodeStep` (index.ts lines 166-199): installs the requested JDK via
sdkman; a non-zero exit fails the pipeline. -/
def SetupNodeStep (w : World) : Step PState :=
  { name := "setup jdk",
    runWhen := fun _ => true,
    run := fun st =>
      let cmd := cmdString "bash"
        ["-c", "source $SDKMAN_DIR/bin/sdkman-init.sh && sdk install java " ++ w.cfgVersion]
      if w.jdkExit ≠ 0 then
        let body := st.body ++ [spawnFailure cmd ""]
        (failureWith (statusReason (cmd ++ " failed")),
         { st with body := body,
                   updates := st.updates ++ [⟨"setup jdk", some .failure, joinBody body, []⟩] })
      else
        let body := st.body ++ ["Installed JDK version " ++ w.cfgVersion]
        (successStatus,
         { st with body := body,
                   updates := st.updates ++ [⟨"setup jdk", none, joinBody body, []⟩] }) }

/-- The tokenized `mvn` configuration argument string with its default
(index.ts line 207). -/
def mvnArgs (w : World) : List String :=
  tokenizeArgString (.ofString (orDefault w.cfgMvn "clean install"))

/-- Executable choice and argument extraction (index.ts lines 209-217):
default to ./mvnw if the wrapper exists, else mvn; a leading "mvn" or
"./mvnw" token becomes the executable and is removed from the arguments. -/
def mvnCommandAndArgs (w : World) : String × List String :=
  let args := mvnArgs w
  let command := if w.mvnwExists then "./mvnw" else "mvn"
  match args with
  | a :: rest => if a = "mvn" ∨ a = "./mvnw" then (a, rest) else (command, args)
  | [] => (command, args)

/-- Default option injection (index.ts lines 219-232): add the local
repository flag unless some token mentions it, and add the settings flag
when .m2/settings.xml exists and the nested duplicate-flag conditions all
pass, transcribed boolean-for-boolean from the source. -/
def mvnOptions (w : World) (settingsXmlPresent : Bool) : List String :=
  let args := (mvnCommandAndArgs w).2
  let options1 : List String :=
    if !(args.any (fun a => jsIncludes a "-Dmaven.repo.local")) then
      ["-Dmaven.repo.local=.m2"]
    else []
  let options2 : List String :=
    if settingsXmlPresent
        && !(args.any (fun a => jsIncludes a "--settings="))
        && !(args.any (fun a => a == "--settings"))
        && !(args.any (fun a => jsIncludes a "-s=" && !(args.any (fun b => b == "-s")))) then
      ["--settings=" ++ projectPath2 w ".m2" "settings.xml"]
    else []
  options1 ++ options2

/-- Step `MvnGoalsStep` (index.ts lines 201-288): run the build, extract
diagnostics from the captured log, and fail when the exit status is non-zero
or any diagnostics were extracted, attaching the diagnostics as annotations
on the failure update. -/
def MvnGoalsStep (w : World) : Step PState :=
  { name := "mvn",
    runWhen := fun _ => true,
    run := fun st =>
      let ca := mvnCommandAndArgs w
      let options := mvnOptions w st.settingsXmlPresent
      let cmd := cmdString ca.1 (options ++ ca.2)
      let annotations := extractAnnotations w.mvnLog
      if w.mvnExit ≠ 0 ∨ annotations.length > 0 then
        let home := orDefault w.atomistHome "/atm/home"
        let body := st.body ++ [spawnFailure cmd w.mvnLog]
        let anns := annotations.map (fun r =>
          ({ annotationLevel := r.severity,
             path := jsReplaceFirst r.path (home ++ "/"),
             startLine := r.line,
             endLine := r.line,
             startOffset := r.column,
             title := r.title,
             message := r.message } : CheckAnnotation))
        (failureWith (statusReason (cmd ++ " failed")),
         { st with body := body,
                   updates := st.updates ++ [⟨"mvn", some .failure, joinBody body, anns⟩] })
      else
        let body := st.body ++ [trimDirectory cmd ++ " successful"]
        (successWith (statusReason "Maven build succeeded"),
         { st with body := body,
                   updates := st.updates ++ [⟨"mvn", some .success, joinBody body, []⟩] }) }

/-- The fixed ordered step list of the handler (index.ts lines 295-306). -/
def handlerSteps (w : World) : List (Step PState) :=
  [LoadProjectStep w, ValidateStep w, CommandStep w, PrepareStep w,
   SetupNodeStep w, MvnGoalsStep w]

/-- The initial shared parameters of one pipeline invocation
(`parameters: { body: [] }`), with the filesystem state of the freshly
loaded project. -/
def initState (w : World) : PState :=
  ⟨false, [], [], w.m2SettingsExists⟩

/-- The event handler: run the step pipeline over the shared parameters. -/
def handler (w : World) : Outcome × PState × List String :=
  runSteps (handlerSteps w) (initState w) successStatus

/-- Suffix test on strings via their character lists. -/
def strEndsWith (s suffix : String) : Bool :=
  suffix.toList.isSuffixOf s.toList

/-- A default diagnostic, used only to read list elements totally. -/
def noDiag : Diagnostic := ⟨.notice, "", none, none, "", ""⟩

/-- A default check update, used only to read list elements totally. -/
def noUpdate : CheckUpdate := ⟨"", none, "", []⟩

/-- The sample log line of the extractor specification. -/
def c7Line : String := "[ERROR] /home/user/proj/Foo.java:[10,3] cannot find symbol"

/-- Modelled from the spec: the executable choice as the specification words
it, for comparison with the source's `mvnCommandAndArgs`. -/
def execChoiceSpec (w : World) : String × List String :=
  let args := mvnArgs w
  let defaultExe := if w.mvnwExists then "./mvnw" else "mvn"
  match args.head? with
  | some t => if t = "mvn" ∨ t = "./mvnw" then (t, args.tail) else (defaultExe, args)
  | none => (defaultExe, args)

/-- A concrete world whose project has no pom.xml. -/
def w3 : World :=
  ⟨false, false, false, "/p", some "/p", some "clean install", "11", none, none, 0, 0, 0, ""⟩

/-- A concrete world where the user passes the short settings flag `-s`
alone and .m2/settings.xml exists. -/
def w4 : World :=
  ⟨true, false, true, "/atm/home", some "/atm/home", some "-s", "11", none, none, 0, 0, 0, ""⟩

/-- A concrete world whose build exits non-zero with one diagnostic in the
log. -/
def w10 : World :=
  ⟨true, false, false, "/p", some "/p", some "x", "11", none, none, 0, 0, 1,
   "[ERROR] /p/F.java:[1,2] boom"⟩

/-- The second check-run update issued by the pipeline on `w10` (the build
step's failure update). -/
def u10 : CheckUpdate := ((handler w10).2.1.updates).getD 1 noUpdate

/-- A step over `Nat` that always fails, for concrete pipeline runs. -/
def failStepNat : Step Nat :=
  ⟨"boom", fun _ => true, fun n => (failureWith "boom", n)⟩

/-- A step over `Nat` that always succeeds, for concrete pipeline runs. -/
def okStepNat : Step Nat :=
  ⟨"ok", fun _ => true, fun n => (successStatus, n + 1)⟩

/-- The update invariant of claim C10: a non-failure conclusion carries no
annotations, annotations appear only on the build step's failure update, and
every annotation spans a single line. -/
def goodUpdate (u : CheckUpdate) : Prop :=
  (u.conclusion ≠ some StatusCode.failure → u.annotations = []) ∧
  (u.annotations ≠ [] → u.step = "mvn" ∧ u.conclusion = some StatusCode.failure) ∧
  (∀ a ∈ u.annotations, a.startLine.isSome = true → a.endLine = a.startLine)

/-- All updates issued so far satisfy the update invariant. -/
def goodState (st : PState) : Prop := ∀ u ∈ st.updates, goodUpdate u

/-- C1: the build step returns a failure outcome if and only if the spawned
process exit status is non-zero or the diagnostics sequence extracted from
the captured log is non-empty. -/
theorem mvnGoals_failure_iff (w : World) (st : PState) :
    ((MvnGoalsStep w).run st).1.code = StatusCode.failure ↔
      (w.mvnExit ≠ 0 ∨ extractAnnotations w.mvnLog ≠ []) := by
  have hlen : (0 < (extractAnnotations w.mvnLog).length) ↔ extractAnnotations w.mvnLog ≠ [] :=
    List.length_pos
  by_cases h : w.mvnExit ≠ 0 ∨ (extractAnnotations w.mvnLog).length > 0
  · simp only [MvnGoalsStep, h, if_true, failureWith]
    constructor
    · intro _
      rcases h with h | h
      · exact Or.inl h
      · exact Or.inr (hlen.mp h)
    · intro _; trivial
  · simp only [MvnGoalsStep, h, if_false, successWith]
    constructor
    · intro hcontra; exact absurd hcontra (by simp)
    · intro hcontra
      rcases hcontra with hc | hc
      · exact absurd (Or.inl hc) h
      · exact absurd (Or.inr (hlen.mpr hc)) h

/-- C6: the executable and argument choice of the build step agrees with the
specification: a leading "mvn" or "./mvnw" token becomes the executable and
is dropped from the arguments, otherwise the wrapper is used when present,
else "mvn", with the arguments left intact. -/
theorem mvnCommand_spec (w : World) : mvnCommandAndArgs w = execChoiceSpec w := by
  unfold mvnCommandAndArgs execChoiceSpec
  cases h : mvnArgs w with
  | nil => simp
  | cons a rest =>
    by_cases h2 : a = "mvn" ∨ a = "./mvnw"
    · simp [h2]
    · simp [h2]

/-- C7: on the single line
"[ERROR] /home/user/proj/Foo.java:[10,3] cannot find symbol" the extractor
yields exactly one diagnostic with severity failure, a path ending in
"Foo.java", line 10 and column 3. -/
theorem extract_error_line :
    (extractAnnotations c7Line).length = 1 ∧
    ((extractAnnotations c7Line).getD 0 noDiag).severity = Severity.failure ∧
    strEndsWith ((extractAnnotations c7Line).getD 0 noDiag).path "Foo.java" = true ∧
    ((extractAnnotations c7Line).getD 0 noDiag).line = some 10 ∧
    ((extractAnnotations c7Line).getD 0 noDiag).column = some 3 := by
  decide

/-- C8 (counterexample): a tab is unquoted whitespace, yet the tokenizer does
not split on it, so splitting on runs of unquoted whitespace fails on
"a\tb". -/
theorem tokenize_tab_counterexample :
    tokenizeArgString (.ofString "a\tb") = ["a\tb"] ∧
    tokenizeArgString (.ofString "a\tb") ≠ ["a", "b"] := by
  decide

/-- C8 (amended): the tokenizer splits on runs of unquoted space characters
(U+0020 only) and retains quote characters, as in the three specification
examples. -/
theorem tokenize_examples :
    tokenizeArgString (.ofString "a b c") = ["a", "b", "c"] ∧
    tokenizeArgString (.ofString "a \x27b c\x27 d") = ["a", "\x27b c\x27", "d"] ∧
    tokenizeArgString (.ofString "") = [] := by
  decide

/-- C9: on an array input the tokenizer returns the element-wise string
coercion of the input, and is the identity on arrays of strings. -/
theorem tokenize_array_identity :
    (∀ l : List JsVal,
        (tokenizeArgString (.ofArray l)).length = l.length ∧
        ∀ i : Nat, (tokenizeArgString (.ofArray l)).getD i "" = (l.map jsCoerce).getD i "") ∧
    (∀ ss : List String, tokenizeArgString (.ofArray (ss.map JsVal.str)) = ss) := by
  constructor
  · intro l
    exact ⟨by simp [tokenizeArgString], fun i => rfl⟩
  · intro ss
    induction ss with
    | nil => rfl
    | cons s rest ih =>
      simpa [tokenizeArgString, jsCoerce] using ih

/-- C4 (code bug): with cfg.mvn = "-s" and .m2/settings.xml present, the
token list contains "-s" yet the build step still appends the default
--settings option, because the nested duplicate-flag condition never detects
the short flag alone. -/
theorem mvnOptions_shortFlag_bug :
    mvnArgs w4 = ["-s"] ∧
    mvnOptions w4 true =
      ["-Dmaven.repo.local=.m2", "--settings=/atm/home/.m2/settings.xml"] := by
  decide

/-- Running a pipeline decomposes along list append: if the first segment
fails or aborts the second never runs, otherwise the second continues from
the first segment's state and last outcome. -/
theorem runSteps_append {σ : Type} (l1 l2 : List (Step σ)) (s0 : σ) (last : Outcome)
    (hcl : last.code ≠ StatusCode.failure) (hal : last.abort = false) :
    runSteps (l1 ++ l2) s0 last =
      (if (runSteps l1 s0 last).1.code = StatusCode.failure ∨ (runSteps l1 s0 last).1.abort = true
       then runSteps l1 s0 last
       else ((runSteps l2 (runSteps l1 s0 last).2.1 (runSteps l1 s0 last).1).1,
             (runSteps l2 (runSteps l1 s0 last).2.1 (runSteps l1 s0 last).1).2.1,
             (runSteps l1 s0 last).2.2 ++
               (runSteps l2 (runSteps l1 s0 last).2.1 (runSteps l1 s0 last).1).2.2)) := by
  induction l1 generalizing s0 last with
  | nil =>
    simp [runSteps, hcl, hal]
  | cons s rest ih =>
    by_cases hw : s.runWhen s0 = true
    · by_cases hf : (s.run s0).1.code = StatusCode.failure
      · simp [runSteps, hw, hf]
      · by_cases hab : (s.run s0).1.abort = true
        · simp [runSteps, hw, hf, hab]
        · have hab' : (s.run s0).1.abort = false := by
            cases hx : (s.run s0).1.abort
            · rfl
            · exact absurd hx hab
          have hrec := ih (s.run s0).2 (s.run s0).1 hf hab'
          have hunfoldL : runSteps ((s :: rest) ++ l2) s0 last =
              ((runSteps (rest ++ l2) (s.run s0).2 (s.run s0).1).1,
               (runSteps (rest ++ l2) (s.run s0).2 (s.run s0).1).2.1,
               s.name :: (runSteps (rest ++ l2) (s.run s0).2 (s.run s0).1).2.2) := by
            simp [runSteps, hw, hf, hab]
          have hunfoldR : runSteps (s :: rest) s0 last =
              ((runSteps rest (s.run s0).2 (s.run s0).1).1,
               (runSteps rest (s.run s0).2 (s.run s0).1).2.1,
               s.name :: (runSteps rest (s.run s0).2 (s.run s0).1).2.2) := by
            simp [runSteps, hw, hf, hab]
          rw [hunfoldL, hunfoldR, hrec]
          by_cases hcond :
              (runSteps rest (s.run s0).2 (s.run s0).1).1.code = StatusCode.failure ∨
              (runSteps rest (s.run s0).2 (s.run s0).1).1.abort = true
          · simp [hcond]
          · simp [hcond]
    · simp only [List.cons_append, runSteps, hw, if_false]
      exact ih s0 last hcl hal

/-- C2: if the steps before `sk` complete without failure or abort and `sk`
itself returns a failure outcome, then the pipeline over the whole list
stops at `sk`: the terminal outcome is exactly `sk`'s failure, the state is
the one `sk` produced, and the executed-step trace ends at `sk`, so no step
after `sk` ever runs. -/
theorem runSteps_failure_stops {σ : Type} (pre : List (Step σ)) (sk : Step σ)
    (post : List (Step σ)) (s0 : σ)
    (hc : (runSteps pre s0 successStatus).1.code ≠ StatusCode.failure)
    (ha : (runSteps pre s0 successStatus).1.abort = false)
    (hw : sk.runWhen (runSteps pre s0 successStatus).2.1 = true)
    (hf : (sk.run (runSteps pre s0 successStatus).2.1).1.code = StatusCode.failure) :
    runSteps (pre ++ sk :: post) s0 successStatus =
      ((sk.run (runSteps pre s0 successStatus).2.1).1,
       (sk.run (runSteps pre s0 successStatus).2.1).2,
       (runSteps pre s0 successStatus).2.2 ++ [sk.name]) := by
  rw [runSteps_append pre (sk :: post) s0 successStatus (by decide) rfl]
  rw [if_neg (by
    intro hcontra
    rcases hcontra with hx | hx
    · exact hc hx
    · rw [ha] at hx; exact Bool.false_ne_true hx)]
  simp [runSteps, hw, hf]

/-- Witness for C2 at a concrete two-step pipeline over `Nat`. -/
theorem runSteps_failure_stops_witness :
    runSteps ([] ++ failStepNat :: [okStepNat]) 0 successStatus =
      ((failStepNat.run (runSteps ([] : List (Step Nat)) 0 successStatus).2.1).1,
       (failStepNat.run (runSteps ([] : List (Step Nat)) 0 successStatus).2.1).2,
       (runSteps ([] : List (Step Nat)) 0 successStatus).2.2 ++ [failStepNat.name]) :=
  runSteps_failure_stops [] failStepNat [okStepNat] 0 (by decide) rfl rfl rfl

/-- C3: when pom.xml is absent the pipeline terminates after the validate
step with a hidden aborting success, no check-run is created, no update is
issued, and only the load and validate steps execute. -/
theorem validate_abort_pipeline (w : World) (h : w.pomExists = false) :
    (handler w).1.code = StatusCode.success ∧
    (handler w).1.hidden = true ∧
    (handler w).1.abort = true ∧
    (handler w).2.1.checkCreated = false ∧
    (handler w).2.1.updates = [] ∧
    (handler w).2.2 = ["load", "validate"] := by
  simp [handler, handlerSteps, runSteps, LoadProjectStep, ValidateStep, h,
        successStatus, hiddenAbortSuccess, initState]

/-- Witness for C3 at a concrete world without pom.xml. -/
theorem validate_abort_pipeline_witness :
    (handler w3).1.code = StatusCode.success ∧
    (handler w3).1.hidden = true ∧
    (handler w3).1.abort = true ∧
    (handler w3).2.1.checkCreated = false ∧
    (handler w3).2.1.updates = [] ∧
    (handler w3).2.2 = ["load", "validate"] :=
  validate_abort_pipeline w3 rfl

/-- The injected settings option never coincides with the injected local
repository option. -/
theorem settingsOpt_ne_repoLocal (s : String) :
    ("--settings=" ++ s) ≠ "-Dmaven.repo.local=.m2" := by
  intro h
  have h2 : ("--settings=" ++ s).data = "-Dmaven.repo.local=.m2".data :=
    congrArg String.data h
  rw [String.data_append] at h2
  have h3 := congrArg (fun l => l.getD 1 ' ') h2
  simp at h3

/-- C5: the default local repository flag appears exactly once in the
injected options when no user token mentions "-Dmaven.repo.local", and not
at all when some token does. -/
theorem mvnOptions_repoLocal (w : World) (sp : Bool) :
    (mvnOptions w sp).count "-Dmaven.repo.local=.m2" =
      (if ((mvnCommandAndArgs w).2).any (fun a => jsIncludes a "-Dmaven.repo.local")
       then 0 else 1) := by
  have h0 : ∀ b : Bool,
      ((if b = true then ["--settings=" ++ projectPath2 w ".m2" "settings.xml"] else []) :
        List String).count "-Dmaven.repo.local=.m2" = 0 := by
    intro b
    cases b
    · simp
    · simp [List.count_cons, settingsOpt_ne_repoLocal]
  have h1 : ∀ b : Bool,
      ((if (!b) = true then ["-Dmaven.repo.local=.m2"] else []) :
        List String).count "-Dmaven.repo.local=.m2" = if b = true then 0 else 1 := by
    intro b
    cases b <;> simp
  simp only [mvnOptions]
  rw [List.count_append, h0, h1]
  cases ((mvnCommandAndArgs w).2).any (fun a => jsIncludes a "-Dmaven.repo.local") <;> simp

/-- The pipeline runner preserves any state predicate that every step's run
function preserves. -/
theorem runSteps_preserves {σ : Type} (P : σ → Prop) :
    ∀ (steps : List (Step σ)), (∀ s ∈ steps, ∀ x, P x → P (s.run x).2) →
      ∀ (s0 : σ) (last : Outcome), P s0 → P (runSteps steps s0 last).2.1 := by
  intro steps
  induction steps with
  | nil =>
    intro _ s0 last h0
    exact h0
  | cons s rest ih =>
    intro hstep s0 last h0
    have hs : ∀ x, P x → P (s.run x).2 := hstep s (List.mem_cons_self s rest)
    have hrest : ∀ t ∈ rest, ∀ x, P x → P (t.run x).2 :=
      fun t ht => hstep t (List.mem_cons_of_mem s ht)
    by_cases hw : s.runWhen s0 = true
    · by_cases hf : (s.run s0).1.code = StatusCode.failure
      · simp only [runSteps, hw, if_true, hf]
        exact hs s0 h0
      · by_cases hab : (s.run s0).1.abort = true
        · simp only [runSteps, hw, if_true, hf, if_false, hab]
          exact hs s0 h0
        · simp only [runSteps, hw, if_true, hf, hab, if_false]
          exact ih hrest (s.run s0).2 (s.run s0).1 (hs s0 h0)
    · simp only [runSteps, hw, if_false]
      exact ih hrest s0 last h0

/-- Appending one good update to a good state keeps the state good. -/
theorem appended_good (st : PState) (h : goodState st) (u : CheckUpdate)
    (hg : goodUpdate u) (st' : PState) (hupd : st'.updates = st.updates ++ [u]) :
    goodState st' := by
  intro v hv
  rw [hupd] at hv
  rcases List.mem_append.mp hv with hv | hv
  · exact h v hv
  · rw [List.mem_singleton.mp hv]
    exact hg

/-- An update with no annotations satisfies the update invariant. -/
theorem goodUpdate_noAnn (s : String) (c : Option StatusCode) (b : String) :
    goodUpdate ⟨s, c, b, []⟩ := by
  refine ⟨fun _ => rfl, fun hne => absurd rfl hne, ?_⟩
  intro a ha
  simp at ha

/-- The load step preserves the update invariant. -/
theorem load_preserves_good (w : World) (st : PState) (h : goodState st) :
    goodState ((LoadProjectStep w).run st).2 := h

/-- The validate step preserves the update invariant. -/
theorem validate_preserves_good (w : World) (st : PState) (h : goodState st) :
    goodState ((ValidateStep w).run st).2 := by
  simp only [ValidateStep]
  by_cases hp : w.pomExists = false
  · simp only [hp, if_true]
    exact h
  · simp only [hp, if_false]
    intro u hu
    exact h u hu

/-- The setup command step preserves the update invariant. -/
theorem command_preserves_good (w : World) (st : PState) (h : goodState st) :
    goodState ((CommandStep w).run st).2 := by
  simp only [CommandStep]
  split
  · exact appended_good st h _ (goodUpdate_noAnn _ _ _) _ rfl
  · exact appended_good st h _ (goodUpdate_noAnn _ _ _) _ rfl

/-- The prepare step preserves the update invariant. -/
theorem prepare_preserves_good (w : World) (st : PState) (h : goodState st) :
    goodState ((PrepareStep w).run st).2 := by
  simp only [PrepareStep]
  exact appended_good st h _ (goodUpdate_noAnn _ _ _) _ rfl

/-- The JDK setup step preserves the update invariant. -/
theorem setup_preserves_good (w : World) (st : PState) (h : goodState st) :
    goodState ((SetupNodeStep w).run st).2 := by
  simp only [SetupNodeStep]
  split
  · exact appended_good st h _ (goodUpdate_noAnn _ _ _) _ rfl
  · exact appended_good st h _ (goodUpdate_noAnn _ _ _) _ rfl

/-- The build step preserves the update invariant: its failure update is
issued with conclusion failure and single-line annotations, its success
update carries no annotations. -/
theorem mvnGoals_preserves_good (w : World) (st : PState) (h : goodState st) :
    goodState ((MvnGoalsStep w).run st).2 := by
  simp only [MvnGoalsStep]
  by_cases hc : w.mvnExit ≠ 0 ∨ (extractAnnotations w.mvnLog).length > 0
  · simp only [hc, if_true]
    refine appended_good st h _ ?_ _ rfl
    refine ⟨fun hne => absurd rfl hne, fun _ => ⟨rfl, rfl⟩, ?_⟩
    intro a ha _
    rcases List.mem_map.mp ha with ⟨r, _, rfl⟩
    rfl
  · simp only [hc, if_false]
    exact appended_good st h _ (goodUpdate_noAnn _ _ _) _ rfl

/-- Every step of the handler pipeline preserves the update invariant. -/
theorem handlerSteps_preserve_good (w : World) :
    ∀ s ∈ handlerSteps w, ∀ st, goodState st → goodState (s.run st).2 := by
  intro s hs st h
  simp only [handlerSteps, List.mem_cons, List.not_mem_nil, or_false] at hs
  rcases hs with rfl | rfl | rfl | rfl | rfl | rfl
  · exact load_preserves_good w st h
  · exact validate_preserves_good w st h
  · exact command_preserves_good w st h
  · exact prepare_preserves_good w st h
  · exact setup_preserves_good w st h
  · exact mvnGoals_preserves_good w st h

/-- C10: every check-run update issued by the pipeline with a conclusion
other than failure carries no annotations, annotations appear only on the
build step's failure update with conclusion failure, and every annotation
with a line spans exactly that line. -/
theorem check_updates_invariant (w : World) (u : CheckUpdate)
    (hu : u ∈ (handler w).2.1.updates) :
    (u.conclusion ≠ some StatusCode.failure → u.annotations = []) ∧
    (u.annotations ≠ [] → u.step = "mvn" ∧ u.conclusion = some StatusCode.failure) ∧
    (∀ a ∈ u.annotations, a.startLine.isSome = true → a.endLine = a.startLine) := by
  have h0 : goodState (initState w) := by
    intro v hv
    simp [initState] at hv
  have h := runSteps_preserves goodState (handlerSteps w) (handlerSteps_preserve_good w)
      (initState w) successStatus h0
  exact h u hu

/-- Witness for C10 at the concrete failing build of `w10`, whose second
update is the build step's annotated failure update. -/
theorem check_updates_invariant_witness :
    (u10.conclusion ≠ some StatusCode.failure → u10.annotations = []) ∧
    (u10.annotations ≠ [] → u10.step = "mvn" ∧ u10.conclusion = some StatusCode.failure) ∧
    (∀ a ∈ u10.annotations, a.startLine.isSome = true → a.endLine = a.startLine) :=
  check_updates_invariant w10 u10 (by decide)

end Mvn
